import Mathlib

/-!
Verification of the log-monitoring engine (`skill/scripts/log_monitor.py`).

This file gives a shallow embedding of the `LogMonitor` class: its line
parser (the logcat regular expression, including the one backtracking case
the regex engine can exercise in the tag field), severity classification,
signature-based deduplication, the per-line aggregation step
`process_log_line`, duration parsing, and the minimum-priority computation
used to build the upstream logcat filter.  The embedding models Python
character classes over ASCII (all inputs appearing in the spec scenarios
are ASCII): `\d` is `0-9`, `\s` is space, tab, newline, carriage return,
vertical tab and form feed, and `str.lower`/`str.strip` act on those ASCII
ranges.  Python's `None`-or-raise outcomes become `Option`; the mutable
`LogMonitor` object becomes an explicit `MonitorState` threaded through the
operations.
-/

namespace LogMon

/-- ASCII model of the regex class `\d`. -/
def isAsciiDigit (c : Char) : Bool := 48 ≤ c.toNat && c.toNat ≤ 57

/-- ASCII model of the regex class `\s` (and of `str.strip`'s whitespace). -/
def isPySpace (c : Char) : Bool :=
  c = ' ' || c = '\t' || c = '\n' || c = '\r' || c = '\x0b' || c = '\x0c'

/-- ASCII model of `str.lower` on one character. -/
def pyLower (c : Char) : Char :=
  if 65 ≤ c.toNat && c.toNat ≤ 90 then Char.ofNat (c.toNat + 32) else c

/-- ASCII model of `str.strip()`: drop leading and trailing whitespace. -/
def pyStrip (s : List Char) : List Char :=
  ((s.dropWhile isPySpace).reverse.dropWhile isPySpace).reverse

/-- Maximal run of characters satisfying `p`, required nonempty
(the deterministic reading of a greedy `p+` whose follower cannot
match a `p`-character). -/
def span1 (p : Char → Bool) (s : List Char) : Option (List Char × List Char) :=
  let t := s.takeWhile p
  if t = [] then none else some (t, s.dropWhile p)

/-- Exactly `n` characters satisfying `p` (the regex `p{n}`). -/
def takeCount (p : Char → Bool) : Nat → List Char → Option (List Char × List Char)
  | 0, s => some ([], s)
  | _ + 1, [] => none
  | n + 1, c :: rest =>
    if p c then
      match takeCount p n rest with
      | none => none
      | some (t, r) => some (c :: t, r)
    else none

/-- One fixed literal character. -/
def expectChar (ch : Char) : List Char → Option (List Char)
  | [] => none
  | c :: rest => if c = ch then some rest else none

/-- The timestamp group `(\d{2}-\d{2}\s+\d{2}:\d{2}:\d{2}\.\d{3})` of the
logcat pattern; every quantifier here is rigid or bounded by a disjoint
follower, so greedy matching is deterministic.  Returns the captured
characters and the rest of the input. -/
def parseTimestamp (s : List Char) : Option (List Char × List Char) :=
  match takeCount isAsciiDigit 2 s with
  | none => none
  | some (mo, s1) =>
  match expectChar '-' s1 with
  | none => none
  | some s2 =>
  match takeCount isAsciiDigit 2 s2 with
  | none => none
  | some (da, s3) =>
  match span1 isPySpace s3 with
  | none => none
  | some (ws, s4) =>
  match takeCount isAsciiDigit 2 s4 with
  | none => none
  | some (hh, s5) =>
  match expectChar ':' s5 with
  | none => none
  | some s6 =>
  match takeCount isAsciiDigit 2 s6 with
  | none => none
  | some (mi, s7) =>
  match expectChar ':' s7 with
  | none => none
  | some s8 =>
  match takeCount isAsciiDigit 2 s8 with
  | none => none
  | some (se, s9) =>
  match expectChar '.' s9 with
  | none => none
  | some s10 =>
  match takeCount isAsciiDigit 3 s10 with
  | none => none
  | some (ms, s11) =>
    some (mo ++ '-' :: da ++ ws ++ hh ++ ':' :: mi ++ ':' :: se ++ '.' :: ms, s11)

/-- The `\s+(\d+)` fragment used for the PID and TID groups: whitespace and
digits are disjoint, so greedy matching is deterministic. -/
def parseNumField (s : List Char) : Option (List Char × List Char) :=
  match span1 isPySpace s with
  | none => none
  | some (_, r) => span1 isAsciiDigit r

/-- The `\s+([VDIWEF])` fragment: whitespace, then one priority character. -/
def parsePriorityStep (s : List Char) : Option (Char × List Char) :=
  match span1 isPySpace s with
  | none => none
  | some (_, r) =>
    match r with
    | [] => none
    | c :: rest =>
      if c = 'V' ∨ c = 'D' ∨ c = 'I' ∨ c = 'W' ∨ c = 'E' ∨ c = 'F' then
        some (c, rest)
      else none

/-- The `\s+([^:]+):` fragment.  Greedy `\s+` takes the whole whitespace
run; if a colon follows immediately the engine backtracks one whitespace
character so that `[^:]+` can match it (possible only when the run has at
least two characters).  Otherwise the tag is the maximal colon-free run,
which must be nonempty and followed by a colon. -/
def parseTagPart (s : List Char) : Option (List Char × List Char) :=
  match span1 isPySpace s with
  | none => none
  | some (ws, rest) =>
    let run := rest.takeWhile (fun c => !(c = ':'))
    let rest2 := rest.dropWhile (fun c => !(c = ':'))
    match rest2 with
    | ':' :: rest3 =>
      if run = [] then
        if 2 ≤ ws.length then some ([ws.getLastD ' '], rest3) else none
      else some (run, rest3)
    | _ => none

/-- The `:\s*(.*)` tail: skip the greedy whitespace run, capture up to the
next newline (Python `.` does not match a newline); `re.match` needs no
end anchor, so this always succeeds. -/
def parseMessagePart (s : List Char) : List Char :=
  (s.dropWhile isPySpace).takeWhile (fun c => !(c = '\n'))

/-- `LogMonitor.PRIORITY_MAP`: note `F` maps to `"fatal"`, not `"error"`. -/
def PRIORITY_MAP (c : Char) : Option String :=
  if c = 'V' then some "verbose"
  else if c = 'D' then some "debug"
  else if c = 'I' then some "info"
  else if c = 'W' then some "warning"
  else if c = 'E' then some "error"
  else if c = 'F' then some "fatal"
  else none

/-- A parsed logcat record (the dict built by `parse_logcat_line`). -/
structure LogRecord where
  timestamp : String
  pid : String
  tid : String
  priority : Char
  severity : String
  tag : String
  message : String
  raw : String
deriving DecidableEq

/-- `LogMonitor.parse_logcat_line`: match the logcat pattern against the
line; `none` models Python's `return None` on a failed match. -/
def parse_logcat_line (line : String) : Option LogRecord :=
  match parseTimestamp line.toList with
  | none => none
  | some (ts, r1) =>
  match parseNumField r1 with
  | none => none
  | some (pid, r2) =>
  match parseNumField r2 with
  | none => none
  | some (tid, r3) =>
  match parsePriorityStep r3 with
  | none => none
  | some (pr, r4) =>
  match parseTagPart r4 with
  | none => none
  | some (tag, r5) =>
    some { timestamp := String.mk ts
           pid := String.mk pid
           tid := String.mk tid
           priority := pr
           severity := (PRIORITY_MAP pr).getD "unknown"
           tag := String.mk (pyStrip tag)
           message := String.mk (pyStrip (parseMessagePart r5))
           raw := line }

/-- `LogMonitor.classify_log_line` on the record's priority character
(the dict lookup `parsed.get("priority", "I")` always finds the key on a
parsed record, so the classifier reduces to this function of the
character; every character outside `E F W I D` falls into the final
`verbose` branch exactly as in the source). -/
def classify_log_line (priority : Char) : String :=
  if priority = 'E' ∨ priority = 'F' then "error"
  else if priority = 'W' then "warning"
  else if priority = 'I' then "info"
  else if priority = 'D' then "debug"
  else "verbose"

/-- `re.sub(r"\d+", "", s)`: deleting every digit run is deleting every
digit character. -/
def removeDigits (s : List Char) : List Char := s.filter (fun c => !(isAsciiDigit c))

/-- Worker for `collapseWs`; the flag records whether the previous kept
character position was inside a whitespace run. -/
def collapseWsAux : Bool → List Char → List Char
  | _, [] => []
  | prevWs, c :: rest =>
    if isPySpace c then
      if prevWs then collapseWsAux true rest
      else ' ' :: collapseWsAux true rest
    else c :: collapseWsAux false rest

/-- `re.sub(r"\s+", " ", s)`: replace each maximal whitespace run by one
space. -/
def collapseWs (s : List Char) : List Char := collapseWsAux false s

/-- The deduplication signature of `deduplicate_message`:
`f"{tag}:{message}"` with digit runs removed, whitespace runs collapsed,
then stripped. -/
def signature (tag message : String) : String :=
  String.mk (pyStrip (collapseWs (removeDigits (tag ++ ":" ++ message).toList)))

/-- The mutable state of a `LogMonitor` instance: storage lists, counters
and the deduplication set (modelled as the list of inserted signatures,
queried only through membership). -/
structure MonitorState where
  severity_filter : List String
  log_lines : List String
  errors : List String
  warnings : List String
  info_messages : List String
  error_count : Nat
  warning_count : Nat
  info_count : Nat
  debug_count : Nat
  verbose_count : Nat
  total_lines : Nat
  seen_messages : List String
deriving DecidableEq

/-- The default severity filter from `__init__`. -/
def default_severity_filter : List String := ["error", "warning", "info", "debug"]

/-- `LogMonitor.__init__`: `severity_filter or [...]` makes both `None`
and the empty list fall back to the default. -/
def initState (severity_filter : Option (List String)) : MonitorState :=
  { severity_filter :=
      match severity_filter with
      | none => default_severity_filter
      | some [] => default_severity_filter
      | some f => f
    log_lines := []
    errors := []
    warnings := []
    info_messages := []
    error_count := 0
    warning_count := 0
    info_count := 0
    debug_count := 0
    verbose_count := 0
    total_lines := 0
    seen_messages := [] }

/-- `LogMonitor.deduplicate_message`: returns whether the signature is new
and the updated state (the set is only grown on a novel signature). -/
def deduplicate_message (st : MonitorState) (message tag : String) :
    Bool × MonitorState :=
  let sig := signature tag message
  if sig ∈ st.seen_messages then (false, st)
  else (true, { st with seen_messages := sig :: st.seen_messages })

/-- The `# Store by severity` tail of `process_log_line`. -/
def store_by_severity (st : MonitorState) (severity : String) (parsed : LogRecord) :
    MonitorState :=
  if severity = "error" then
    { st with error_count := st.error_count + 1
              errors := st.errors ++ ["[" ++ parsed.tag ++ "] " ++ parsed.message] }
  else if severity = "warning" then
    { st with warning_count := st.warning_count + 1
              warnings := st.warnings ++ ["[" ++ parsed.tag ++ "] " ++ parsed.message] }
  else if severity = "info" then
    { st with info_count := st.info_count + 1
              info_messages :=
                if st.info_messages.length < 20 then
                  st.info_messages ++ ["[" ++ parsed.tag ++ "] " ++ parsed.message]
                else st.info_messages }
  else if severity = "debug" then
    { st with debug_count := st.debug_count + 1 }
  else
    { st with verbose_count := st.verbose_count + 1 }

/-- `LogMonitor.process_log_line`: blank lines return immediately;
unparsed lines are stored raw and counted in `total_lines` only; parsed
lines are stored, counted, severity-gated, deduplicated (errors and
warnings only; a duplicate returns before any counter update) and finally
stored by severity. -/
def process_log_line (st : MonitorState) (line : String) : MonitorState :=
  if pyStrip line.toList = [] then st
  else
    match parse_logcat_line line with
    | none =>
      { st with log_lines := st.log_lines ++ [line]
                total_lines := st.total_lines + 1 }
    | some parsed =>
      let st1 := { st with total_lines := st.total_lines + 1
                           log_lines := st.log_lines ++ [parsed.raw] }
      let severity := classify_log_line parsed.priority
      if severity ∈ st1.severity_filter then
        if severity = "error" ∨ severity = "warning" then
          match deduplicate_message st1 parsed.message parsed.tag with
          | (false, st2) => st2
          | (true, st2) => store_by_severity st2 severity parsed
        else store_by_severity st1 severity parsed
      else st1

/-- Value of an ASCII digit string, as computed by Python `int`. -/
def digitsToNat (ds : List Char) : Nat :=
  ds.foldl (fun acc c => acc * 10 + (c.toNat - 48)) 0

/-- `LogMonitor.parse_time_duration`: `re.match(r"(\d+)([smh])", s.lower())`
is a prefix match — a maximal leading digit run followed by a unit letter,
anything after the unit being ignored; `none` models the `ValueError`. -/
def parse_time_duration (s : String) : Option Nat :=
  let cs := s.toList.map pyLower
  match span1 isAsciiDigit cs with
  | none => none
  | some (ds, rest) =>
    match rest with
    | [] => none
    | u :: _ =>
      if u = 's' then some (digitsToNat ds)
      else if u = 'm' then some (digitsToNat ds * 60)
      else if u = 'h' then some (digitsToNat ds * 3600)
      else none

/-- The priority letters contributed by a severity filter, in filter order
(the loop in `stream_logs`): `error` contributes `E` and `F`, the other
known severities one letter each, unknown strings nothing. -/
def priority_letters : List String → List Char
  | [] => []
  | sev :: rest =>
    (if sev = "error" then ['E', 'F']
     else if sev = "warning" then ['W']
     else if sev = "info" then ['I']
     else if sev = "debug" then ['D']
     else if sev = "verbose" then ['V']
     else []) ++ priority_letters rest

/-- The ordering list `V < D < I < W < E < F` used in `stream_logs`. -/
def priority_order : List Char := ['V', 'D', 'I', 'W', 'E', 'F']

/-- `priority_order.index(p)`. -/
def priority_rank (c : Char) : Nat := priority_order.indexOf c

/-- The minimum-priority computation of `stream_logs`: the letter of
`priority_order` at the minimum index of any contributed letter; `none`
when no letter is contributed (then no `*:X` filter is appended). -/
def min_priority (f : List String) : Option Char :=
  match priority_letters f with
  | [] => none
  | a :: rest =>
    priority_order.get?
      (rest.foldl (fun m p => Nat.min m (priority_rank p)) (priority_rank a))

/-- `self.log_lines[-50:]`, the `sample_logs` field of `get_json_output`
(and the verbose tail of `get_summary`). -/
def sample_logs (st : MonitorState) : List String :=
  st.log_lines.drop (st.log_lines.length - 50)

/-- The content `save_logs` writes to the raw-text artifact:
`"\n".join(self.log_lines)` over the whole list. -/
def save_logs_text (st : MonitorState) : String :=
  String.intercalate "\n" st.log_lines

/-- Modelled from the spec (§6): the duration expression grammar
`<integer><unit>`, unit in `{s, m, h}`, covering the whole string.  Used
only to compare the code's prefix-based acceptance against the spec's
grammar. -/
def spec_duration_grammar (s : String) : Bool :=
  match s.toList.reverse with
  | [] => false
  | u :: revDigits =>
    (u = 's' || u = 'm' || u = 'h') && !(revDigits = []) &&
      revDigits.all isAsciiDigit

/-- `n` successive calls of `deduplicate_message` with the same message
and tag, collecting the returned booleans in call order. -/
def dedupN (message tag : String) : Nat → MonitorState → List Bool × MonitorState
  | 0, st => ([], st)
  | n + 1, st =>
    let r := deduplicate_message st message tag
    let rest := dedupN message tag n r.2
    (r.1 :: rest.1, rest.2)

/-- The three-line scenario of the spec (§8). -/
def scenario_lines : List String :=
  ["01-01 00:00:00.000 1 1 E TagA: boom 1",
   "01-01 00:00:00.100 1 1 E TagA: boom 2",
   "01-01 00:00:00.200 1 1 I TagB: ok"]

/-- The state after processing the scenario lines with the default filter. -/
def scenario_final : MonitorState :=
  scenario_lines.foldl process_log_line (initState none)

/-- A well-formed logcat line with fatal priority. -/
def fatal_line : String := "01-01 00:00:00.000 1 1 F Tag: msg"

/-- The record `parse_logcat_line` produces for `fatal_line`. -/
def fatal_record : LogRecord :=
  { timestamp := "01-01 00:00:00.000", pid := "1", tid := "1",
    priority := 'F', severity := "fatal", tag := "Tag", message := "msg",
    raw := fatal_line }

/-- The signature depends on the tag and message only through their
digit-free projections: digit removal distributes over the
`tag ++ ":" ++ message` concatenation. -/
theorem signature_congr {t1 t2 m1 m2 : String}
    (ht : removeDigits t1.toList = removeDigits t2.toList)
    (hm : removeDigits m1.toList = removeDigits m2.toList) :
    signature t1 m1 = signature t2 m2 := by
  have key : removeDigits (t1 ++ ":" ++ m1).toList
      = removeDigits (t2 ++ ":" ++ m2).toList := by
    have e1 : (t1 ++ ":" ++ m1).toList = t1.toList ++ ":".toList ++ m1.toList := by
      simp [String.toList, String.data_append]
    have e2 : (t2 ++ ":" ++ m2).toList = t2.toList ++ ":".toList ++ m2.toList := by
      simp [String.toList, String.data_append]
    rw [e1, e2]
    simp only [removeDigits, List.filter_append] at ht hm ⊢
    rw [ht, hm]
  unfold signature
  rw [key]

/-- A signature already in the seen set is reported duplicate and leaves
the state unchanged. -/
theorem dedup_of_mem {st : MonitorState} {m t : String}
    (h : signature t m ∈ st.seen_messages) :
    deduplicate_message st m t = (false, st) := by
  simp [deduplicate_message, h]

/-- A fresh signature is reported novel and inserted. -/
theorem dedup_of_not_mem {st : MonitorState} {m t : String}
    (h : signature t m ∉ st.seen_messages) :
    deduplicate_message st m t =
      (true, { st with seen_messages := signature t m :: st.seen_messages }) := by
  simp [deduplicate_message, h]

/-- Once the signature is in the seen set, every further submission is a
duplicate and the state never changes. -/
theorem dedupN_of_mem {m t : String} (n : Nat) (st : MonitorState)
    (h : signature t m ∈ st.seen_messages) :
    dedupN m t n st = (List.replicate n false, st) := by
  induction n generalizing st with
  | zero => simp [dedupN]
  | succ k ih => simp [dedupN, dedup_of_mem h, ih st h, List.replicate_succ]

/-- Claim C6: signature computation is numeral-invariant — for every tag
and every pair of messages equal after deleting digit runs, the
signatures coincide; in particular ("Tag", "Failed at 12") and
("Tag", "Failed at 99") share a signature and the second submission is
reported as a duplicate. -/
theorem C6_signature_numeral_invariant (tag m1 m2 : String)
    (h : removeDigits m1.toList = removeDigits m2.toList) :
    signature tag m1 = signature tag m2 ∧
    signature "Tag" "Failed at 12" = signature "Tag" "Failed at 99" ∧
    (deduplicate_message
      ((deduplicate_message (initState none) "Failed at 12" "Tag").2)
      "Failed at 99" "Tag").1 = false :=
  ⟨signature_congr rfl h, by decide, by decide⟩

/-- Witness for C6 at a concrete message pair. -/
theorem C6_witness :
    removeDigits ("Failed at 12" : String).toList
        = removeDigits ("Failed at 9901" : String).toList ∧
    signature "Tag" "Failed at 12" = signature "Tag" "Failed at 9901" :=
  ⟨by decide,
   (C6_signature_numeral_invariant "Tag" "Failed at 12" "Failed at 9901"
      (by decide)).1⟩

/-- Claim C7: deduplication yields exactly one novel outcome per
signature — from any state in which the signature of (tag, message) has
not been seen, submitting the pair n+1 times returns true on the first
submission and false on each of the remaining n. -/
theorem C7_dedup_one_novel (st : MonitorState) (tag message : String) (n : Nat)
    (h : signature tag message ∉ st.seen_messages) :
    (dedupN message tag (n + 1) st).1 = true :: List.replicate n false := by
  have h1 := @dedup_of_not_mem st message tag h
  have h2 : signature tag message ∈
      ({ st with seen_messages :=
          signature tag message :: st.seen_messages } : MonitorState).seen_messages := by
    simp
  simp [dedupN, h1, dedupN_of_mem n _ h2]

/-- Witness for C7: three submissions of a fresh pair in a new session. -/
theorem C7_witness :
    (dedupN "conn reset" "Net" 3 (initState none)).1
      = true :: List.replicate 2 false :=
  C7_dedup_one_novel (initState none) "Net" "conn reset" 2 (by decide)

/-- Claim C10: the signature joins tag and message with a colon before
deleting digit runs, so digit removal applies to the tag as well — tags
equal after deleting digit runs give equal signatures for any fixed
message; in particular ("Worker1", m) and ("Worker2", m) collide and the
second submission is reported as a duplicate. -/
theorem C10_tag_digits_in_signature (t1 t2 msg : String)
    (h : removeDigits t1.toList = removeDigits t2.toList) :
    signature t1 msg = signature t2 msg ∧
    signature "Worker1" "task failed" = signature "Worker2" "task failed" ∧
    (deduplicate_message
      ((deduplicate_message (initState none) "task failed" "Worker1").2)
      "task failed" "Worker2").1 = false :=
  ⟨signature_congr h rfl, by decide, by decide⟩

/-- Witness for C10 at a concrete tag pair. -/
theorem C10_witness :
    removeDigits ("Worker1" : String).toList
        = removeDigits ("Worker2" : String).toList ∧
    signature "Worker1" "task failed" = signature "Worker2" "task failed" :=
  ⟨by decide,
   (C10_tag_digits_in_signature "Worker1" "Worker2" "task failed" (by decide)).1⟩

/-- Storing by severity touches only counters and the issue lists. -/
@[simp] theorem store_log_lines (st : MonitorState) (sev : String) (p : LogRecord) :
    (store_by_severity st sev p).log_lines = st.log_lines := by
  unfold store_by_severity
  repeat' split
  all_goals rfl

/-- Storing by severity does not change the total line count. -/
@[simp] theorem store_total_lines (st : MonitorState) (sev : String) (p : LogRecord) :
    (store_by_severity st sev p).total_lines = st.total_lines := by
  unfold store_by_severity
  repeat' split
  all_goals rfl

/-- Deduplication touches only the seen set. -/
@[simp] theorem dedup_snd_log_lines (st : MonitorState) (m t : String) :
    ((deduplicate_message st m t).2).log_lines = st.log_lines := by
  unfold deduplicate_message
  dsimp only
  split <;> simp

/-- Deduplication does not change the total line count. -/
@[simp] theorem dedup_snd_total_lines (st : MonitorState) (m t : String) :
    ((deduplicate_message st m t).2).total_lines = st.total_lines := by
  unfold deduplicate_message
  dsimp only
  split <;> simp

/-- Shape of one `process_log_line` step on a non-blank line: an unparsed
line is appended verbatim with only `total_lines` also changing, and a
parsed line appends its `raw` field and increments `total_lines`, in
every branch of the severity gate and deduplicator. -/
theorem process_shape (st : MonitorState) (line : String)
    (h : ¬ pyStrip line.toList = []) :
    (parse_logcat_line line = none →
        process_log_line st line =
          { st with log_lines := st.log_lines ++ [line]
                    total_lines := st.total_lines + 1 }) ∧
    (∀ r, parse_logcat_line line = some r →
        (process_log_line st line).log_lines = st.log_lines ++ [r.raw] ∧
        (process_log_line st line).total_lines = st.total_lines + 1) := by
  have h2 : ¬ pyStrip line.data = [] := h
  constructor
  · intro hp
    simp [process_log_line, h, h2, hp]
  · intro r hp
    unfold process_log_line
    rw [if_neg h, hp]
    dsimp only
    split
    · split
      · split
        · rename_i st2 heq
          have h2 := congrArg Prod.snd heq
          rw [show (false, st2).snd = st2 from rfl] at h2
          rw [← h2]
          simp
        · rename_i st2 heq
          have h2 := congrArg Prod.snd heq
          rw [show (true, st2).snd = st2 from rfl] at h2
          rw [← h2]
          simp
      · simp
    · simp

/-- The report views keep at most the last 50 raw lines. -/
theorem sample_logs_le (st : MonitorState) : (sample_logs st).length ≤ 50 := by
  simp only [sample_logs, List.length_drop]
  omega

/-- The priority character of a successful `parsePriorityStep` is one of
the six logcat priorities. -/
theorem parsePriorityStep_mem {s : List Char} {c : Char} {r : List Char}
    (h : parsePriorityStep s = some (c, r)) :
    c = 'V' ∨ c = 'D' ∨ c = 'I' ∨ c = 'W' ∨ c = 'E' ∨ c = 'F' := by
  unfold parsePriorityStep at h
  repeat' split at h
  all_goals simp_all

/-- Fields of a successfully parsed record: `raw` is the whole input
line, the stored `severity` is the `PRIORITY_MAP` image of the priority
character, and that character is one of the six logcat priorities. -/
theorem parse_some_fields {line : String} {r : LogRecord}
    (h : parse_logcat_line line = some r) :
    r.raw = line ∧
    r.severity = (PRIORITY_MAP r.priority).getD "unknown" ∧
    (r.priority = 'V' ∨ r.priority = 'D' ∨ r.priority = 'I' ∨ r.priority = 'W' ∨
     r.priority = 'E' ∨ r.priority = 'F') := by
  unfold parse_logcat_line at h
  repeat' split at h
  all_goals try simp_all
  subst h
  exact ⟨rfl, rfl, parsePriorityStep_mem (by assumption)⟩

/-- Claim C1 (counterexample): in the three-line scenario a duplicate
error line is not counted — `error_count` ends at 1, not 2 as the claim
states. -/
theorem C1_counterexample :
    scenario_final.error_count ≠ 2 ∧ scenario_final.error_count = 1 := by decide

/-- Claim C1 (amended): a duplicate error/warning record is suppressed
from the top-issues lists and from the per-severity counters alike
(`process_log_line` returns before counting); the scenario leaves
`error_count` = 1, `info_count` = 1, exactly one errors entry and one
info entry, with all three lines counted in `total_lines`. -/
theorem C1_scenario :
    scenario_final.error_count = 1 ∧ scenario_final.info_count = 1 ∧
    scenario_final.errors = ["[TagA] boom 1"] ∧
    scenario_final.info_messages = ["[TagB] ok"] ∧
    scenario_final.total_lines = 3 := by decide

/-- Claim C2 (counterexample): after 51 processed lines the stored
raw-line list holds 51 entries — it is not capped at 50. -/
theorem C2_counterexample :
    (((List.replicate 51 "x").foldl process_log_line
        (initState none)).log_lines).length = 51 ∧
    ¬ (((List.replicate 51 "x").foldl process_log_line
        (initState none)).log_lines).length ≤ 50 := by decide

/-- Claim C2 (amended): the raw-line list is unbounded and append-only —
each non-blank processed line adds exactly one entry at the tail and the
existing prefix is never evicted; the most-recent-50 bound exists only in
the report views (`sample_logs`), while the persisted raw-text artifact
serializes the whole list. -/
theorem C2_log_lines_unbounded (st : MonitorState) (line : String)
    (h : ¬ pyStrip line.toList = []) :
    (process_log_line st line).log_lines.length = st.log_lines.length + 1 ∧
    (process_log_line st line).log_lines.take st.log_lines.length = st.log_lines ∧
    (sample_logs st).length ≤ 50 ∧
    save_logs_text st = String.intercalate "\n" st.log_lines := by
  obtain ⟨h1, h2⟩ := process_shape st line h
  refine ⟨?_, ?_, sample_logs_le st, rfl⟩
  · cases hp : parse_logcat_line line with
    | none =>
        rw [h1 hp]
        simp
    | some r =>
        rw [(h2 r hp).1]
        simp
  · cases hp : parse_logcat_line line with
    | none =>
        rw [h1 hp]
        simp
    | some r =>
        rw [(h2 r hp).1]
        exact List.take_left st.log_lines [r.raw]

/-- Witness for C2 on a concrete state and line. -/
theorem C2_witness :
    (process_log_line (initState none) "x").log_lines.length
        = (initState none).log_lines.length + 1 :=
  (C2_log_lines_unbounded (initState none) "x" (by decide)).1

/-- Claim C3 (counterexample): a whitespace-only line is dropped
entirely — it is neither stored nor counted, contradicting the claim
that a raw-only line is never dropped. -/
theorem C3_counterexample :
    process_log_line (initState none) " " = initState none ∧
    (process_log_line (initState none) " ").log_lines ≠ [" "] ∧
    (process_log_line (initState none) " ").total_lines = 0 := by decide

/-- Claim C3 (amended): every line with non-whitespace content yields
exactly one outcome — an unparsed line is appended verbatim to the raw
storage and counted in `total_lines` with every counter and list left
unchanged, and a parsed line is appended through its `raw` field and
counted; whitespace-only lines are silently discarded. -/
theorem C3_one_outcome_per_line (st : MonitorState) (line : String)
    (h : ¬ pyStrip line.toList = []) :
    (parse_logcat_line line = none →
        process_log_line st line =
          { st with log_lines := st.log_lines ++ [line]
                    total_lines := st.total_lines + 1 }) ∧
    (∀ r, parse_logcat_line line = some r →
        (process_log_line st line).log_lines = st.log_lines ++ [r.raw] ∧
        (process_log_line st line).total_lines = st.total_lines + 1) :=
  process_shape st line h

/-- Witness for C3: one unparseable non-blank line is stored raw and
counted, with no other field changed. -/
theorem C3_witness :
    process_log_line (initState none) "garbage" =
      { initState none with log_lines := ["garbage"], total_lines := 1 } :=
  (C3_one_outcome_per_line (initState none) "garbage" (by decide)).1 (by decide)

/-- Claim C4 (counterexample): the empty line does not match the logcat
shape, yet it is not retained — nothing is appended to the raw storage. -/
theorem C4_counterexample :
    parse_logcat_line "" = none ∧
    process_log_line (initState none) "" = initState none ∧
    (process_log_line (initState none) "").log_lines = [] := by decide

/-- Claim C4 (amended): parsing is embedded as a total function — it
never fails to return; every non-whitespace-only line that does not match
the logcat shape is retained with raw text equal to the input exactly,
and a successfully parsed line carries `raw` equal to the input exactly;
a whitespace-only unmatched line is discarded instead of retained. -/
theorem C4_parser_total_retention (st : MonitorState) (line : String)
    (h : ¬ pyStrip line.toList = []) :
    (parse_logcat_line line = none →
        (process_log_line st line).log_lines = st.log_lines ++ [line]) ∧
    (∀ r, parse_logcat_line line = some r → r.raw = line) := by
  obtain ⟨h1, _⟩ := process_shape st line h
  refine ⟨fun hp => ?_, fun r hp => (parse_some_fields hp).1⟩
  rw [h1 hp]

/-- Witness for C4: a concrete malformed line is retained verbatim. -/
theorem C4_witness :
    (process_log_line (initState none) "zzz").log_lines = ["zzz"] :=
  (C4_parser_total_retention (initState none) "zzz" (by decide)).1 (by decide)

/-- Claim C8 (counterexample): the severity field stored on a record
parsed from a fatal-priority line is `"fatal"`, which is not one of the
five claimed values — fatal does not collapse into error in the stored
field. -/
theorem C8_counterexample :
    (parse_logcat_line fatal_line).map LogRecord.severity = some "fatal" ∧
    "fatal" ∉ (["verbose", "debug", "info", "warning", "error"] : List String) := by
  decide

/-- Claim C8 (amended): for every parsed record the classification used
for counting and filtering is one of the five tiers under
V→verbose, D→debug, I→info, W→warning, E→error, F→error; the severity
field stored on the record follows `PRIORITY_MAP`, which agrees with the
classification except that `F` is stored as `"fatal"`. -/
theorem C8_severity_mapping (line : String) (r : LogRecord)
    (h : parse_logcat_line line = some r) :
    classify_log_line r.priority ∈
      (["verbose", "debug", "info", "warning", "error"] : List String) ∧
    (r.priority = 'V' → classify_log_line r.priority = "verbose" ∧ r.severity = "verbose") ∧
    (r.priority = 'D' → classify_log_line r.priority = "debug" ∧ r.severity = "debug") ∧
    (r.priority = 'I' → classify_log_line r.priority = "info" ∧ r.severity = "info") ∧
    (r.priority = 'W' → classify_log_line r.priority = "warning" ∧ r.severity = "warning") ∧
    (r.priority = 'E' → classify_log_line r.priority = "error" ∧ r.severity = "error") ∧
    (r.priority = 'F' → classify_log_line r.priority = "error" ∧ r.severity = "fatal") := by
  obtain ⟨-, hsev, hmem⟩ := parse_some_fields h
  refine ⟨?_, ?_, ?_, ?_, ?_, ?_, ?_⟩
  · rcases hmem with hc | hc | hc | hc | hc | hc <;> rw [hc] <;> decide
  all_goals
    intro hp
    rw [hp] at hsev
    rw [hp, hsev]
    exact ⟨by decide, by decide⟩

/-- Witness for C8 at a concrete fatal-priority line. -/
theorem C8_witness :
    classify_log_line fatal_record.priority = "error" ∧
    fatal_record.severity = "fatal" :=
  (C8_severity_mapping fatal_line fatal_record (by decide)).2.2.2.2.2.2 (by decide)

/-- Lowercasing fixes an ASCII digit. -/
theorem pyLower_digit {c : Char} (h : isAsciiDigit c = true) : pyLower c = c := by
  simp only [isAsciiDigit, Bool.and_eq_true, decide_eq_true_eq] at h
  unfold pyLower
  rw [if_neg]
  simp only [Bool.and_eq_true, decide_eq_true_eq, not_and]
  omega

/-- Mapping a function that fixes every element of a list is the
identity on that list. -/
theorem map_id_of_fixpoints {f : Char → Char} :
    ∀ {l : List Char}, (∀ c ∈ l, f c = c) → l.map f = l := by
  intro l
  induction l with
  | nil => intro _; rfl
  | cons a t ih =>
    intro h
    simp only [List.map_cons, h a (by simp), ih (fun c hc => h c (by simp [hc]))]

/-- Splitting a `takeWhile`/`dropWhile` span at the boundary between a
block of satisfying elements and a first failing element. -/
theorem span_all_append {p : Char → Bool} {l1 l2 : List Char}
    (h1 : ∀ c ∈ l1, p c = true)
    (h2 : ∀ c rest, l2 = c :: rest → p c = false) :
    (l1 ++ l2).takeWhile p = l1 ∧ (l1 ++ l2).dropWhile p = l2 := by
  induction l1 with
  | nil =>
    simp only [List.nil_append]
    cases l2 with
    | nil => simp
    | cons c rest =>
      simp [List.takeWhile_cons, List.dropWhile_cons, h2 c rest rfl]
  | cons a t ih =>
    have hpa : p a = true := h1 a (by simp)
    have hrec := ih (fun c hc => h1 c (by simp [hc]))
    simp [List.takeWhile_cons, List.dropWhile_cons, hpa, hrec.1, hrec.2]

/-- Claim C5 (counterexample): `"5mx"` is outside the duration grammar
`<integer><unit>` yet is accepted with value 300 — the pattern is matched
as a prefix, so trailing garbage after a valid prefix is not rejected. -/
theorem C5_counterexample :
    spec_duration_grammar "5mx" = false ∧
    parse_time_duration "5mx" = some 300 := by decide

/-- Claim C5 (amended): duration parsing maps 30s to 30, 5m to 300 and
1h to 3600, rejects 5x, and accepts every string conforming to the
grammar `<integer><unit>` with unit in s, m, h; but acceptance is
prefix-based, so strings with trailing characters after a valid
`<integer><unit>` prefix are accepted with the prefix's value rather
than rejected. -/
theorem C5_duration_parsing :
    parse_time_duration "30s" = some 30 ∧
    parse_time_duration "5m" = some 300 ∧
    parse_time_duration "1h" = some 3600 ∧
    parse_time_duration "5x" = none ∧
    ∀ s, spec_duration_grammar s = true → (parse_time_duration s).isSome = true := by
  refine ⟨by decide, by decide, by decide, by decide, ?_⟩
  intro s hs
  unfold spec_duration_grammar at hs
  cases hrev : s.toList.reverse with
  | nil =>
    rw [hrev] at hs
    simp at hs
  | cons u rev =>
    rw [hrev] at hs
    simp only [Bool.and_eq_true, Bool.or_eq_true, decide_eq_true_eq,
      Bool.not_eq_true', decide_eq_false_iff_not, List.all_eq_true] at hs
    obtain ⟨⟨hu, hrne⟩, hdig⟩ := hs
    have hlist : s.toList = rev.reverse ++ [u] := by
      have h3 := congrArg List.reverse hrev
      simpa using h3
    have hufix : pyLower u = u ∧ isAsciiDigit u = false := by
      rcases hu with (rfl | rfl) | rfl <;> exact ⟨by decide, by decide⟩
    have hdigrev : ∀ c ∈ rev.reverse, isAsciiDigit c = true :=
      fun c hc => hdig c (List.mem_reverse.mp hc)
    have hmap : s.toList.map pyLower = rev.reverse ++ [u] := by
      rw [hlist, List.map_append]
      rw [map_id_of_fixpoints (fun c hc => pyLower_digit (hdigrev c hc))]
      simp [hufix.1]
    have hstop : ∀ c rest, ([u] : List Char) = c :: rest → isAsciiDigit c = false := by
      intro c rest hcr
      obtain ⟨rfl, -⟩ : u = c ∧ rest = [] := by
        constructor <;> injection hcr with e1 e2
        exact e2.symm
      exact hufix.2
    have hspan := span_all_append hdigrev hstop
    have hrevne : rev.reverse ≠ [] := by
      intro hcon
      exact hrne (by simpa using congrArg List.reverse hcon)
    unfold parse_time_duration
    rw [hmap]
    unfold span1
    simp only [hspan.1, hspan.2]
    rw [if_neg hrevne]
    rcases hu with (rfl | rfl) | rfl <;> simp

/-- Witness for C5 at the grammar-conforming input 30s. -/
theorem C5_witness :
    spec_duration_grammar "30s" = true ∧
    (parse_time_duration "30s").isSome = true :=
  ⟨by decide, C5_duration_parsing.2.2.2.2 "30s" (by decide)⟩

/-- Every contributed priority letter is one of the six logcat
priorities. -/
theorem mem_priority_letters {f : List String} {c : Char}
    (h : c ∈ priority_letters f) :
    c = 'V' ∨ c = 'D' ∨ c = 'I' ∨ c = 'W' ∨ c = 'E' ∨ c = 'F' := by
  induction f with
  | nil => simp [priority_letters] at h
  | cons sev rest ih =>
    simp only [priority_letters, List.mem_append] at h
    rcases h with h | h
    · repeat' split at h
      all_goals simp_all
    · exact ih h

/-- A nonempty filter of valid severities contributes at least one
letter. -/
theorem priority_letters_ne_nil {f : List String} (hne : f ≠ [])
    (hval : ∀ s ∈ f, s ∈ (["error", "warning", "info", "debug", "verbose"] : List String)) :
    priority_letters f ≠ [] := by
  cases f with
  | nil => exact absurd rfl hne
  | cons s rest =>
    have hs : s = "error" ∨ s = "warning" ∨ s = "info" ∨ s = "debug" ∨ s = "verbose" := by
      simpa using hval s (by simp)
    simp only [priority_letters]
    intro hcon
    rcases List.append_eq_nil.mp hcon with ⟨h1, -⟩
    rcases hs with rfl | rfl | rfl | rfl | rfl <;> simp_all

/-- A left fold by `Nat.min` yields the initial value or a list member,
and bounds the initial value and every member from below. -/
theorem foldl_min_spec (l : List Nat) :
    ∀ a : Nat, (l.foldl Nat.min a = a ∨ l.foldl Nat.min a ∈ l) ∧
      l.foldl Nat.min a ≤ a ∧ ∀ x ∈ l, l.foldl Nat.min a ≤ x := by
  induction l with
  | nil =>
    intro a
    simp
  | cons b t ih =>
    intro a
    have h := ih (Nat.min a b)
    simp only [List.foldl_cons]
    refine ⟨?_, ?_, ?_⟩
    · rcases h.1 with he | hm
      · have hab : Nat.min a b = a ∨ Nat.min a b = b := by
          by_cases hle : a ≤ b
          · exact Or.inl (Nat.min_eq_left hle)
          · exact Or.inr (Nat.min_eq_right (Nat.le_of_not_le hle))
        rcases hab with h1 | h1
        · left
          rw [he, h1]
        · right
          rw [he, h1]
          exact List.mem_cons_self b t
      · right
        exact List.mem_cons_of_mem b hm
    · calc t.foldl Nat.min (Nat.min a b) ≤ Nat.min a b := h.2.1
        _ ≤ a := Nat.min_le_left a b
    · intro x hx
      rcases List.mem_cons.mp hx with rfl | hxt
      · calc t.foldl Nat.min (Nat.min a x) ≤ Nat.min a x := h.2.1
          _ ≤ x := Nat.min_le_right a x
      · exact h.2.2 x hxt

/-- Indexing `priority_order` at the rank of one of the six priorities
recovers that priority. -/
theorem rank_get (c : Char)
    (h : c = 'V' ∨ c = 'D' ∨ c = 'I' ∨ c = 'W' ∨ c = 'E' ∨ c = 'F') :
    priority_order.get? (priority_rank c) = some c := by
  rcases h with rfl | rfl | rfl | rfl | rfl | rfl <;> decide

/-- Claim C9: for every nonempty set of valid severities the computed
threshold is the single contributed letter of minimum rank in the
ordering V, D, I, W, E, F, and the default filter yields minimum
priority D. -/
theorem C9_min_priority (f : List String) (hne : f ≠ [])
    (hval : ∀ s ∈ f, s ∈ (["error", "warning", "info", "debug", "verbose"] : List String)) :
    min_priority default_severity_filter = some 'D' ∧
    ∃ c, min_priority f = some c ∧ c ∈ priority_letters f ∧
      ∀ p ∈ priority_letters f, priority_rank c ≤ priority_rank p := by
  refine ⟨by decide, ?_⟩
  have hl := priority_letters_ne_nil hne hval
  cases hletters : priority_letters f with
  | nil => exact absurd hletters hl
  | cons a tl =>
    have hfold : tl.foldl (fun m p => Nat.min m (priority_rank p)) (priority_rank a)
        = (tl.map priority_rank).foldl Nat.min (priority_rank a) := by
      rw [List.foldl_map]
    obtain ⟨hmem', hlea, hall⟩ := foldl_min_spec (tl.map priority_rank) (priority_rank a)
    have hex : ∃ c, c ∈ a :: tl ∧
        priority_rank c = (tl.map priority_rank).foldl Nat.min (priority_rank a) := by
      rcases hmem' with he | hm
      · exact ⟨a, by simp, he.symm⟩
      · obtain ⟨c, hc, hcr⟩ := List.mem_map.mp hm
        exact ⟨c, by simp [hc], hcr⟩
    obtain ⟨c, hcmem, hcr⟩ := hex
    have hcmem2 : c ∈ priority_letters f := by
      rw [hletters]
      exact hcmem
    refine ⟨c, ?_, hcmem, ?_⟩
    · simp only [min_priority, hletters]
      rw [hfold, ← hcr]
      exact rank_get c (mem_priority_letters hcmem2)
    · intro p hp
      rcases List.mem_cons.mp hp with rfl | hptl
      · rw [hcr]
        exact hlea
      · rw [hcr]
        exact hall (priority_rank p) (List.mem_map_of_mem priority_rank hptl)

/-- Witness for C9 at the filter containing only the error severity. -/
theorem C9_witness :
    min_priority default_severity_filter = some 'D' ∧
    ∃ c, min_priority ["error"] = some c ∧ c ∈ priority_letters ["error"] ∧
      ∀ p ∈ priority_letters ["error"], priority_rank c ≤ priority_rank p :=
  C9_min_priority ["error"] (by decide) (by decide)

end LogMon
